import Mathlib

/-!
# The truffle configuration of dnssec-oracle

`truffle.js` assigns one object literal to `module.exports`.  The development
below embeds that literal as a value of a small JavaScript value type (strings,
integer-valued numbers, objects as property lists in source order) and proves
the structural properties of the exported configuration.

Object literals are evaluated the way the language does it: properties are
created in source order, a later entry with the same key overwrites the value
of an earlier one (`getOwn` returns the last binding), and the key keeps the
position of its first occurrence (`ownKeys`).  Only own properties are
modelled; what an object inherits from its prototype is not part of the file.
-/

namespace TruffleConfig

/-- A JavaScript value as it occurs in `truffle.js`: a string literal, an
integer number literal, or an object literal given by its entries in source
order. -/
inductive JsValue where
  | str (s : String)
  | num (n : Int)
  | obj (entries : List (String × JsValue))

/-- The value bound to the own property `k` by an object literal with the given
entries: the last entry whose key is `k`, if there is one. -/
def getOwn (k : String) : List (String × JsValue) → Option JsValue
  | [] => none
  | (k', v) :: rest =>
    match getOwn k rest with
    | some w => some w
    | none => if k' = k then some v else none

/-- The own property names created by an object literal, each once, in the order
of first occurrence. -/
def ownKeys : List (String × JsValue) → List String
  | [] => []
  | (k, _) :: rest => k :: (ownKeys rest).filter (fun k' => decide (k' ≠ k))

/-- The entries of an object value; a string or a number has none. -/
def entriesOf : JsValue → List (String × JsValue)
  | .obj es => es
  | _ => []

/-- Member access `v.k` / `v[k]` restricted to own properties; `none` stands for
`undefined`. -/
def prop (v : JsValue) (k : String) : Option JsValue :=
  getOwn k (entriesOf v)

/-- Member access along a path of names, `v.k1.k2...`; `none` as soon as a
member is undefined. -/
def path (v : JsValue) : List String → Option JsValue
  | [] => some v
  | k :: ks =>
    match prop v k with
    | some w => path w ks
    | none => none

/-- The own property names of a value. -/
def keysOf (v : JsValue) : List String :=
  ownKeys (entriesOf v)

/-- The object assigned to `module.exports` in `truffle.js`, entry by entry in
source order.  The block comment that follows the `mocha` entry (a disabled
`solc` section) is lexically white space and contributes no entry. -/
def module_exports : JsValue :=
  .obj [
    ("networks", .obj [
      ("development", .obj [
        ("host", .str "localhost"),
        ("port", .num 8545),
        ("network_id", .str "*"),
        ("gas", .num 4712388)
      ]),
      ("local", .obj [
        ("host", .str "localhost"),
        ("port", .num 8545),
        ("network_id", .str "*"),
        ("gas", .num 4712388)
      ]),
      ("test", .obj [
        ("host", .str "localhost"),
        ("port", .num 8545),
        ("network_id", .str "*"),
        ("gas", .num 4712388)
      ]),
      ("rinkeby", .obj [
        ("host", .str "localhost"),
        ("port", .num 8545),
        ("network_id", .str "*"),
        ("gas", .num 4712388)
      ]),
      ("ropsten", .obj [
        ("host", .str "localhost"),
        ("port", .num 8545),
        ("network_id", .str "3"),
        ("from", .str "0xa303ddc620aa7d1390baccc8a495508b183fab59"),
        ("gas", .num 5000000)
      ])
    ]),
    ("mocha", .obj [
      ("reporter", .str "eth-gas-reporter"),
      ("reporterOptions", .obj [
        ("currency", .str "USD"),
        ("gasPrice", .num 1)
      ])
    ])
  ]

/-- The value of `module.exports.networks`, or an empty object should it be
undefined. -/
def networks : JsValue :=
  (prop module_exports "networks").getD (.obj [])

/-- The value of `module.exports.mocha`, or an empty object should it be
undefined. -/
def mocha : JsValue :=
  (prop module_exports "mocha").getD (.obj [])

/-- The value of `module.exports.mocha.reporterOptions`, or an empty object
should it be undefined. -/
def reporterOptions : JsValue :=
  (prop mocha "reporterOptions").getD (.obj [])

/-- The names of the networks the configuration declares. -/
def networkNames : List String :=
  keysOf networks

/-- The gas limit of the network called `name`: the number at
`module.exports.networks[name].gas`, if there is one. -/
def gasLimit (name : String) : Option Int :=
  match path module_exports ["networks", name, "gas"] with
  | some (.num g) => some g
  | _ => none

/-- Whether a value is a string (`typeof v === 'string'`). -/
def isStr : JsValue → Bool
  | .str _ => true
  | _ => false

/-- Whether a value is an integer-valued number. -/
def isInt : JsValue → Bool
  | .num _ => true
  | _ => false

/-- Whether a value is an object. -/
def isObj : JsValue → Bool
  | .obj _ => true
  | _ => false

/-- Whether a character is a decimal digit. -/
def isDecDigit (c : Char) : Bool :=
  decide ('0' ≤ c) && decide (c ≤ '9')

/-- Whether a character is a lowercase hexadecimal digit. -/
def isLowerHexDigit (c : Char) : Bool :=
  isDecDigit c || (decide ('a' ≤ c) && decide (c ≤ 'f'))

/-- Whether a string is a chain identifier as the configuration writes them: the
wildcard or a non-empty run of decimal digits. -/
def isNetworkId (s : String) : Bool :=
  decide (s = "*") || (!s.data.isEmpty && s.data.all isDecDigit)

/-! ## General facts about object literals -/

theorem mem_ownKeys (k : String) (es : List (String × JsValue)) :
    k ∈ ownKeys es ↔ k ∈ es.map Prod.fst := by
  induction es with
  | nil => simp [ownKeys]
  | cons e rest ih =>
    obtain ⟨k', v⟩ := e
    by_cases h : k = k'
    · simp [ownKeys, h]
    · simp [ownKeys, List.mem_filter, ih, h]

theorem getOwn_isSome (k : String) (es : List (String × JsValue)) :
    (getOwn k es).isSome = true ↔ k ∈ es.map Prod.fst := by
  induction es with
  | nil => simp [getOwn]
  | cons e rest ih =>
    obtain ⟨k', v⟩ := e
    simp only [getOwn, List.map_cons, List.mem_cons]
    cases hr : getOwn k rest with
    | some w =>
      have : k ∈ rest.map Prod.fst := ih.mp (by simp [hr])
      simp [this]
    | none =>
      have hn : ¬ k ∈ rest.map Prod.fst := fun hm => by
        have := ih.mpr hm
        simp [hr] at this
      by_cases h : k' = k
      · simp [h]
      · have h' : ¬ k = k' := fun e => h e.symm
        simp [h, h', hn]

theorem getOwn_isSome_iff_mem_ownKeys (k : String) (es : List (String × JsValue)) :
    (getOwn k es).isSome = true ↔ k ∈ ownKeys es := by
  rw [getOwn_isSome, mem_ownKeys]

theorem nodup_ownKeys (es : List (String × JsValue)) : (ownKeys es).Nodup := by
  induction es with
  | nil => simp [ownKeys]
  | cons e rest ih =>
    obtain ⟨k, v⟩ := e
    simp only [ownKeys, List.nodup_cons]
    exact ⟨by simp [List.mem_filter], ih.filter _⟩

/-! ## The declared networks -/

theorem networkNames_eq :
    networkNames = ["development", "local", "test", "rinkeby", "ropsten"] := by
  decide

theorem mem_networkNames (name : String) :
    name ∈ networkNames ↔
      name = "development" ∨ name = "local" ∨ name = "test" ∨ name = "rinkeby" ∨
        name = "ropsten" := by
  rw [networkNames_eq]
  simp only [List.mem_cons, List.mem_singleton, List.not_mem_nil, or_false]

/-- A property holds of every declared network once it holds of each of the
five names. -/
theorem forall_networkNames (P : String → Prop) (hdev : P "development")
    (hloc : P "local") (htest : P "test") (hrin : P "rinkeby") (hrop : P "ropsten") :
    ∀ name ∈ networkNames, P name := by
  intro name hn
  rcases (mem_networkNames name).mp hn with rfl | rfl | rfl | rfl | rfl <;> assumption

/-- C1: `module.exports.networks` is an object whose literal has five entries
and whose keys are exactly development, local, test, rinkeby and ropsten,
pairwise distinct; looking a name up in it yields a profile (an object) if and
only if the name is one of those five. -/
theorem networks_has_exactly_five_keys :
    path module_exports ["networks"] = some networks ∧ isObj networks = true ∧
    (entriesOf networks).length = 5 ∧
    keysOf networks = ["development", "local", "test", "rinkeby", "ropsten"] ∧
    ((entriesOf networks).map Prod.fst).Nodup ∧
    ∀ name : String,
      (∃ p, prop networks name = some p ∧ isObj p = true) ↔
        name ∈ ["development", "local", "test", "rinkeby", "ropsten"] := by
  refine ⟨rfl, rfl, rfl, networkNames_eq, by decide, ?_⟩
  intro name
  constructor
  · rintro ⟨p, hp, _⟩
    have hs : (getOwn name (entriesOf networks)).isSome = true := by
      have : getOwn name (entriesOf networks) = some p := hp
      simp [this]
    have hm : name ∈ networkNames := (getOwn_isSome_iff_mem_ownKeys _ _).mp hs
    rwa [networkNames_eq] at hm
  · intro hm
    rw [← networkNames_eq] at hm
    revert name
    exact forall_networkNames _ ⟨_, rfl, rfl⟩ ⟨_, rfl, rfl⟩ ⟨_, rfl, rfl⟩ ⟨_, rfl, rfl⟩
      ⟨_, rfl, rfl⟩

/-- C2: for every declared network, `host` is a non-empty string and `port`
equals 8545. -/
theorem host_nonempty_and_port_8545 :
    ∀ name ∈ networkNames, ∃ h : String,
      path module_exports ["networks", name, "host"] = some (.str h) ∧ h ≠ "" ∧
      path module_exports ["networks", name, "port"] = some (.num 8545) := by
  apply forall_networkNames <;> exact ⟨_, rfl, by decide, rfl⟩

theorem host_nonempty_and_port_8545_witness :
    ∃ h : String,
      path module_exports ["networks", "rinkeby", "host"] = some (.str h) ∧ h ≠ "" ∧
      path module_exports ["networks", "rinkeby", "port"] = some (.num 8545) :=
  host_nonempty_and_port_8545 "rinkeby" (by decide)

/-- C3: `networks.ropsten.network_id` is the string "3", and every other
declared network has `network_id` equal to the wildcard string "*". -/
theorem network_id_values :
    path module_exports ["networks", "ropsten", "network_id"] = some (.str "3") ∧
    ∀ name ∈ networkNames, name ≠ "ropsten" →
      path module_exports ["networks", name, "network_id"] = some (.str "*") := by
  refine ⟨rfl, ?_⟩
  apply forall_networkNames
  · exact fun _ => rfl
  · exact fun _ => rfl
  · exact fun _ => rfl
  · exact fun _ => rfl
  · exact fun h => absurd rfl h

theorem network_id_values_witness :
    path module_exports ["networks", "ropsten", "network_id"] = some (.str "3") ∧
    path module_exports ["networks", "development", "network_id"] = some (.str "*") :=
  ⟨network_id_values.1, network_id_values.2 "development" (by decide) (by decide)⟩

/-- C4: `networks.ropsten.from` is the string
"0xa303ddc620aa7d1390baccc8a495508b183fab59", and every declared network other
than ropsten is a profile on which `from` is not defined. -/
theorem from_only_on_ropsten :
    path module_exports ["networks", "ropsten", "from"] =
      some (.str "0xa303ddc620aa7d1390baccc8a495508b183fab59") ∧
    ∀ name ∈ networkNames, name ≠ "ropsten" →
      ∃ p, prop networks name = some p ∧ prop p "from" = none ∧ "from" ∉ keysOf p := by
  refine ⟨rfl, ?_⟩
  apply forall_networkNames
  · exact fun _ => ⟨_, rfl, rfl, by decide⟩
  · exact fun _ => ⟨_, rfl, rfl, by decide⟩
  · exact fun _ => ⟨_, rfl, rfl, by decide⟩
  · exact fun _ => ⟨_, rfl, rfl, by decide⟩
  · exact fun h => absurd rfl h

theorem from_only_on_ropsten_witness :
    ∃ p, prop networks "local" = some p ∧ prop p "from" = none ∧ "from" ∉ keysOf p :=
  from_only_on_ropsten.2 "local" (by decide) (by decide)

/-- C5: `mocha.reporterOptions.currency` is the string "USD" and
`mocha.reporterOptions.gasPrice` is the number 1. -/
theorem reporterOptions_values :
    path module_exports ["mocha", "reporterOptions", "currency"] = some (.str "USD") ∧
    path module_exports ["mocha", "reporterOptions", "gasPrice"] = some (.num 1) :=
  ⟨rfl, rfl⟩

/-- C6: the exported object has exactly the two top-level keys `networks` and
`mocha`: its literal has two entries, a lookup succeeds exactly for those two
names, and in particular `solc` is not defined on it. -/
theorem exports_has_exactly_two_keys :
    isObj module_exports = true ∧ (entriesOf module_exports).length = 2 ∧
    keysOf module_exports = ["networks", "mocha"] ∧
    (∀ k : String, (prop module_exports k).isSome = true ↔ k = "networks" ∨ k = "mocha") ∧
    prop module_exports "solc" = none ∧ "solc" ∉ keysOf module_exports := by
  refine ⟨rfl, rfl, by decide, ?_, rfl, by decide⟩
  intro k
  have hk : keysOf module_exports = ["networks", "mocha"] := by decide
  have := getOwn_isSome_iff_mem_ownKeys k (entriesOf module_exports)
  rw [prop, this]
  change k ∈ keysOf module_exports ↔ _
  rw [hk]
  simp only [List.mem_cons, List.mem_singleton, List.not_mem_nil, or_false]

/-- C7: every declared network is a profile that defines `host` and `network_id`
as strings and `port` and `gas` as integers, defines no field other than these
four and `from`, and has a `network_id` that is the wildcard "*" or a non-empty
string of decimal digits. -/
theorem profile_shape :
    ∀ name ∈ networkNames, ∃ p, prop networks name = some p ∧ isObj p = true ∧
      (∃ h, prop p "host" = some h ∧ isStr h = true) ∧
      (∃ n, prop p "port" = some n ∧ isInt n = true) ∧
      (∃ s, prop p "network_id" = some (.str s) ∧ isNetworkId s = true) ∧
      (∃ g, prop p "gas" = some g ∧ isInt g = true) ∧
      ∀ k ∈ keysOf p, k ∈ ["host", "port", "network_id", "gas", "from"] := by
  apply forall_networkNames <;>
    exact ⟨_, rfl, rfl, ⟨_, rfl, rfl⟩, ⟨_, rfl, rfl⟩, ⟨_, rfl, by decide⟩, ⟨_, rfl, rfl⟩,
      by decide⟩

theorem profile_shape_witness :
    ∃ p, prop networks "ropsten" = some p ∧ isObj p = true ∧
      (∃ h, prop p "host" = some h ∧ isStr h = true) ∧
      (∃ n, prop p "port" = some n ∧ isInt n = true) ∧
      (∃ s, prop p "network_id" = some (.str s) ∧ isNetworkId s = true) ∧
      (∃ g, prop p "gas" = some g ∧ isInt g = true) ∧
      ∀ k ∈ keysOf p, k ∈ ["host", "port", "network_id", "gas", "from"] :=
  profile_shape "ropsten" (by decide)

/-- C8: the gas limit is 4712388 for development, local, test and rinkeby and
5000000 for ropsten; so every declared network has a positive gas limit, and
the limit of every network other than ropsten is strictly below ropsten's. -/
theorem gas_limits :
    gasLimit "development" = some 4712388 ∧ gasLimit "local" = some 4712388 ∧
    gasLimit "test" = some 4712388 ∧ gasLimit "rinkeby" = some 4712388 ∧
    gasLimit "ropsten" = some 5000000 ∧
    (∀ name ∈ networkNames, ∃ g, gasLimit name = some g ∧ 0 < g) ∧
    ∀ name ∈ networkNames, name ≠ "ropsten" →
      ∃ g r, gasLimit name = some g ∧ gasLimit "ropsten" = some r ∧ g < r := by
  refine ⟨rfl, rfl, rfl, rfl, rfl, ?_, ?_⟩
  · apply forall_networkNames <;> exact ⟨_, rfl, by decide⟩
  · apply forall_networkNames
    · exact fun _ => ⟨_, _, rfl, rfl, by decide⟩
    · exact fun _ => ⟨_, _, rfl, rfl, by decide⟩
    · exact fun _ => ⟨_, _, rfl, rfl, by decide⟩
    · exact fun _ => ⟨_, _, rfl, rfl, by decide⟩
    · exact fun h => absurd rfl h

theorem gas_limits_witness :
    (∃ g, gasLimit "ropsten" = some g ∧ 0 < g) ∧
    ∃ g r, gasLimit "test" = some g ∧ gasLimit "ropsten" = some r ∧ g < r :=
  ⟨gas_limits.2.2.2.2.2.1 "ropsten" (by decide),
   gas_limits.2.2.2.2.2.2 "test" (by decide) (by decide)⟩

/-- C9: `mocha.reporter` is the string "eth-gas-reporter"; `mocha` has exactly
the keys `reporter` and `reporterOptions`, and `reporterOptions` has exactly the
keys `currency` and `gasPrice`. -/
theorem mocha_shape :
    path module_exports ["mocha", "reporter"] = some (.str "eth-gas-reporter") ∧
    path module_exports ["mocha"] = some mocha ∧
    (entriesOf mocha).length = 2 ∧ keysOf mocha = ["reporter", "reporterOptions"] ∧
    path module_exports ["mocha", "reporterOptions"] = some reporterOptions ∧
    (entriesOf reporterOptions).length = 2 ∧
    keysOf reporterOptions = ["currency", "gasPrice"] ∧
    (∀ k : String, (prop mocha k).isSome = true ↔ k = "reporter" ∨ k = "reporterOptions") ∧
    ∀ k : String, (prop reporterOptions k).isSome = true ↔ k = "currency" ∨ k = "gasPrice" := by
  have hm : keysOf mocha = ["reporter", "reporterOptions"] := by decide
  have hr : keysOf reporterOptions = ["currency", "gasPrice"] := by decide
  refine ⟨rfl, rfl, rfl, hm, rfl, rfl, hr, ?_, ?_⟩
  · intro k
    rw [prop, getOwn_isSome_iff_mem_ownKeys]
    change k ∈ keysOf mocha ↔ _
    rw [hm]
    simp only [List.mem_cons, List.mem_singleton, List.not_mem_nil, or_false]
  · intro k
    rw [prop, getOwn_isSome_iff_mem_ownKeys]
    change k ∈ keysOf reporterOptions ↔ _
    rw [hr]
    simp only [List.mem_cons, List.mem_singleton, List.not_mem_nil, or_false]

/-- C10: `networks.ropsten.from` is a well-formed 20-byte account address in
lowercase hex: a string of length 42 that starts with "0x" and whose remaining
40 characters are each one of 0-9 or a-f. -/
theorem ropsten_from_is_address :
    ∃ s : String, path module_exports ["networks", "ropsten", "from"] = some (.str s) ∧
      s.length = 42 ∧ s.data.take 2 = ['0', 'x'] ∧ (s.data.drop 2).length = 40 ∧
      ∀ c ∈ s.data.drop 2, isLowerHexDigit c = true :=
  ⟨_, rfl, by decide, by decide, by decide, by decide⟩

end TruffleConfig
